import Mathlib

/-!
Verification of the plansys2 ProblemExpert knowledge base
(src/plansys2_problem_expert/src/plansys2_problem_expert/ProblemExpert.cpp).

The state and every mutator are embedded as executable Lean functions.
Helpers living outside this repository slice (parser::pddl equality and
subtree utilities, the DomainExpert query surface) are modelled from the
specification; each such definition says so in its doc comment.
-/

set_option maxHeartbeats 1000000

namespace Plansys2

/-- Node kinds of the expression-tree arena (the plansys2_msgs::msg::Node
node_type constants used by ProblemExpert.cpp). -/
inductive NodeType where
  | AND
  | OR
  | NOT
  | UNKNOWN
  | ONE_OF
  | PREDICATE
  | FUNCTION
  | EXPRESSION
  | FUNCTION_MODIFIER
  | NUMBER
deriving DecidableEq, Repr

/-- A parameter slot of a grounded predicate or function: the bound object
name (plansys2_msgs::msg::Param; only the name field is read by this code). -/
structure Param where
  name : String
deriving DecidableEq, Repr

/-- plansys2_msgs::msg::Node. The message's float64 value is modelled as Int
(none of the embedded operations computes with it); node_id is omitted
because a node's identity here is its position in the tree's node list. -/
structure Node where
  node_type : NodeType
  name : String
  parameters : List Param
  value : Int
  negate : Bool
  children : List Nat
deriving DecidableEq, Repr

/-- Default node used for modelling in-bounds vector accesses totally. -/
def defaultNode : Node :=
  { node_type := NodeType.NUMBER, name := "", parameters := [], value := 0,
    negate := false, children := [] }

instance : Inhabited Node := ⟨defaultNode⟩

/-- plansys2_msgs::msg::Tree: a flat arena of nodes; the root is node 0. -/
structure Tree where
  nodes : List Node
deriving DecidableEq, Repr

/-- The cleared goal (goal_.nodes.clear() in the source). -/
def emptyTree : Tree := ⟨[]⟩

/-- plansys2::Instance: a typed object. -/
structure Instance where
  name : String
  type : String
deriving DecidableEq, Repr

/-- One parameter position of a schema signature: declared type plus the
accepted sub_types, as consumed from the DomainExpert. -/
structure ParamSig where
  type : String
  sub_types : List String
deriving DecidableEq, Repr

/-- The consumed DomainExpert interface (getTypes, getPredicate, getFunction),
modelled as association lists. -/
structure DomainModel where
  types : List String
  predicates : List (String × List ParamSig)
  functions : List (String × List ParamSig)
deriving DecidableEq, Repr

def DomainModel.getPredicate (d : DomainModel) (name : String) : Option (List ParamSig) :=
  (d.predicates.find? (fun pr => decide (pr.1 = name))).map (fun pr => pr.2)

def DomainModel.getFunction (d : DomainModel) (name : String) : Option (List ParamSig) :=
  (d.functions.find? (fun pr => decide (pr.1 = name))).map (fun pr => pr.2)

/-- The ProblemExpert state: the four owned collections plus the goal and the
consumed domain view. -/
structure ProblemExpert where
  domain_expert_ : DomainModel
  instances_ : List Instance
  predicates_ : List Node
  functions_ : List Node
  conditionals_ : List Tree
  goal_ : Tree
deriving DecidableEq, Repr

/-- ProblemExpert::isValidType: membership of the type in getTypes(). -/
def isValidType (d : DomainModel) (type : String) : Bool :=
  d.types.any (fun t => decide (t = type))

/-- ProblemExpert::getInstance: the first stored instance with the given name. -/
def getInstanceIn (insts : List Instance) (instance_name : String) : Option Instance :=
  insts.find? (fun i => decide (i.name = instance_name))

/-- One parameter check of ProblemExpert::isValidPredicate / isValidFunction:
the bound object exists and its type equals the declared parameter type or one
of its declared sub_types. -/
def paramTypeOk (insts : List Instance) (sig : ParamSig) (p : Param) : Bool :=
  match getInstanceIn insts p.name with
  | none => false
  | some arg => decide (arg.type = sig.type) || sig.sub_types.any (fun s => decide (arg.type = s))

/-- ProblemExpert::isValidPredicate: the schema knows the name, arity matches,
and every bound object passes the subtype-aware parameter check. -/
def isValidPredicate (d : DomainModel) (insts : List Instance) (predicate : Node) : Bool :=
  match d.getPredicate predicate.name with
  | none => false
  | some sig =>
    decide (sig.length = predicate.parameters.length) &&
    (sig.zip predicate.parameters).all (fun pr => paramTypeOk insts pr.1 pr.2)

/-- ProblemExpert::isValidFunction, same shape as isValidPredicate. -/
def isValidFunction (d : DomainModel) (insts : List Instance) (function : Node) : Bool :=
  match d.getFunction function.name with
  | none => false
  | some sig =>
    decide (sig.length = function.parameters.length) &&
    (sig.zip function.parameters).all (fun pr => paramTypeOk insts pr.1 pr.2)

/-- ProblemExpert::checkPredicateTreeTypes, with an explicit recursion budget:
the source recurses on arbitrary child indices and returns exactly when no node
is revisited along the call path, so every terminating source run is reproduced
with fuel larger than its recursion depth. Out-of-range node_id returns false
(the guard at the top of the source function). In the NOT case the source reads
children[0] unconditionally; an empty children list there is an out-of-bounds
vector read in the source, modelled as false. -/
def checkAux (d : DomainModel) (insts : List Instance) (t : Tree) : Nat → Nat → Bool
  | 0, _ => false
  | fuel + 1, node_id =>
    match t.nodes[node_id]? with
    | none => false
    | some node =>
      match node.node_type with
      | NodeType.AND => node.children.all (fun c => checkAux d insts t fuel c)
      | NodeType.OR => node.children.all (fun c => checkAux d insts t fuel c)
      | NodeType.NOT =>
        match node.children with
        | [] => false
        | c :: _ => checkAux d insts t fuel c
      | NodeType.UNKNOWN =>
        match node.children with
        | [c] => checkAux d insts t fuel c
        | _ => false
      | NodeType.ONE_OF => node.children.all (fun c => checkAux d insts t fuel c)
      | NodeType.PREDICATE => isValidPredicate d insts node
      | NodeType.FUNCTION => isValidFunction d insts node
      | NodeType.EXPRESSION => node.children.all (fun c => checkAux d insts t fuel c)
      | NodeType.FUNCTION_MODIFIER => node.children.all (fun c => checkAux d insts t fuel c)
      | NodeType.NUMBER => true

/-- ProblemExpert::checkPredicateTreeTypes entry point (node_id = 0). Fuel
nodes.length + 1 covers any recursion along pairwise distinct nodes; a deeper
run revisits a node, on which the source function does not return. -/
def checkPredicateTreeTypes (d : DomainModel) (insts : List Instance) (t : Tree) : Bool :=
  checkAux d insts t (t.nodes.length + 1) 0

/-- Modelled from the spec: parser::pddl::checkNodeEquality is not under src/.
Nodes compare structurally and parameter-wise; a FUNCTION node is keyed by
(name, parameters), its numeric value not being part of its identity. -/
def nodeEq (a b : Node) : Bool :=
  decide (a.node_type = b.node_type) && decide (a.name = b.name) &&
  decide (a.parameters = b.parameters) && decide (a.negate = b.negate) &&
  (decide (a.node_type = NodeType.FUNCTION) || decide (a.value = b.value))

/-- Modelled from the spec: parser::pddl::checkTreeEquality is not under src/.
Two trees are equal iff their node sequences are equal (full structural tree
equality; disjunct order matters). -/
def checkTreeEquality (a b : Tree) : Bool :=
  decide (a.nodes = b.nodes)

/-- ProblemExpert::addInstance. -/
def addInstance (pe : ProblemExpert) (instance_ : Instance) : Bool × ProblemExpert :=
  if isValidType pe.domain_expert_ instance_.type = false then (false, pe)
  else
    match getInstanceIn pe.instances_ instance_.name with
    | some existing =>
      if decide (existing.type = instance_.type) then (true, pe) else (false, pe)
    | none => (true, { pe with instances_ := pe.instances_ ++ [instance_] })

/-- ProblemExpert::existInstance. -/
def existInstance (pe : ProblemExpert) (name : String) : Bool :=
  pe.instances_.any (fun i => decide (i.name = name))

/-- Does a stored predicate or function reference the named object in its
parameter list. -/
def refersTo (n : Node) (name : String) : Bool :=
  n.parameters.any (fun p => decide (p.name = name))

/-- ProblemExpert::removeInvalidPredicates: the reverse-iterating erase loop of
the source removes every entry whose parameter list references the instance
name; the net effect keeps exactly the non-referencing entries, in order. -/
def removeInvalidPredicates (predicates : List Node) (name : String) : List Node :=
  predicates.filter (fun p => !refersTo p name)

/-- ProblemExpert::removeInvalidFunctions, same shape. -/
def removeInvalidFunctions (functions : List Node) (name : String) : List Node :=
  functions.filter (fun f => !refersTo f name)

/-- Modelled from the spec: the parser::pddl subtree traversal is not under
src/. Indices of the nodes reachable from a root index, depth-first. -/
def collectIdxs (t : Tree) : Nat → Nat → List Nat
  | 0, _ => []
  | fuel + 1, i =>
    match t.nodes[i]? with
    | none => []
    | some n => i :: n.children.foldr (fun c acc => collectIdxs t fuel c ++ acc) []

/-- Modelled from the spec: the subtree rooted at index i, with nodes
renumbered by rebuild-and-replace. -/
def getSubtree (t : Tree) (i : Nat) : Tree :=
  let idxs := collectIdxs t (t.nodes.length + 1) i
  ⟨idxs.map (fun j =>
    let n := t.nodes.getD j defaultNode
    { n with children := n.children.map (fun c => idxs.indexOf c) })⟩

/-- Modelled from the spec: parser::pddl::getSubtrees is not under src/; the
top-level AND/OR joined subgoals of a goal are its root's child subtrees. -/
def getSubtrees (t : Tree) : List Tree :=
  match t.nodes[0]? with
  | none => []
  | some root =>
    if root.node_type = NodeType.AND ∨ root.node_type = NodeType.OR then
      root.children.map (fun c => getSubtree t c)
    else []

/-- Modelled from the spec: parser::pddl::getPredicates / getFunctions are not
under src/; they collect the leaves of the given kind reachable from node 0. -/
def leavesOfKind (t : Tree) (k : NodeType) : List Node :=
  ((collectIdxs t (t.nodes.length + 1) 0).filterMap (fun i => t.nodes[i]?)).filter
    (fun n => decide (n.node_type = k))

/-- Modelled from the spec: parser::pddl::fromSubtrees is not under src/; it
rebuilds a tree with the given root connective and the subtrees as its
children, and yields none when no subtree is given. -/
def fromSubtrees (ts : List Tree) (conn : NodeType) : Option Tree :=
  match ts with
  | [] => none
  | _ =>
    let step := fun (st : List Node × List Nat) (sub : Tree) =>
      let off := st.1.length + 1
      (st.1 ++ sub.nodes.map (fun n => { n with children := n.children.map (fun c => c + off) }),
       st.2 ++ [off])
    let built := ts.foldl step ([], [])
    some ⟨{ defaultNode with node_type := conn, children := built.2 } :: built.1⟩

/-- ProblemExpert::removeInvalidGoals: drop every top-level subgoal whose
predicates or functions reference the removed instance, then rebuild the goal
with the original top connective, or clear it when no subgoal survives.
Subgoal extraction and rebuilding are modelled from the spec. -/
def removeInvalidGoals (goal : Tree) (name : String) : Tree :=
  let subgoals := getSubtrees goal
  if subgoals.isEmpty then goal
  else
    let surviving := subgoals.filter (fun sg =>
      !(leavesOfKind sg NodeType.PREDICATE).any (fun n => refersTo n name) &&
      !(leavesOfKind sg NodeType.FUNCTION).any (fun n => refersTo n name))
    match fromSubtrees surviving (goal.nodes.headD defaultNode).node_type with
    | some rebuilt => rebuilt
    | none => emptyTree

/-- ProblemExpert::removeInstance: erases the first instance with the matching
name (found reports whether one existed) and then unconditionally cascades over
predicates, functions and the goal. -/
def removeInstance (pe : ProblemExpert) (instance_ : Instance) : Bool × ProblemExpert :=
  (pe.instances_.any (fun i => decide (i.name = instance_.name)),
   { pe with
     instances_ := pe.instances_.eraseP (fun i => decide (i.name = instance_.name)),
     predicates_ := removeInvalidPredicates pe.predicates_ instance_.name,
     functions_ := removeInvalidFunctions pe.functions_ instance_.name,
     goal_ := removeInvalidGoals pe.goal_ instance_.name })

/-- ProblemExpert::existPredicate. -/
def existPredicate (pe : ProblemExpert) (predicate : Node) : Bool :=
  pe.predicates_.any (fun q => nodeEq q predicate)

/-- ProblemExpert::addPredicate. -/
def addPredicate (pe : ProblemExpert) (predicate : Node) : Bool × ProblemExpert :=
  if existPredicate pe predicate then (true, pe)
  else if isValidPredicate pe.domain_expert_ pe.instances_ predicate then
    (true, { pe with predicates_ := pe.predicates_ ++ [predicate] })
  else (false, pe)

/-- ProblemExpert::removePredicate: reject invalid input, otherwise erase the
first structurally equal stored entry and report true either way. -/
def removePredicate (pe : ProblemExpert) (predicate : Node) : Bool × ProblemExpert :=
  if isValidPredicate pe.domain_expert_ pe.instances_ predicate = false then (false, pe)
  else (true, { pe with predicates_ := pe.predicates_.eraseP (fun q => nodeEq q predicate) })

/-- ProblemExpert::existFunction. -/
def existFunction (pe : ProblemExpert) (function : Node) : Bool :=
  pe.functions_.any (fun q => nodeEq q function)

/-- ProblemExpert::removeFunction. -/
def removeFunction (pe : ProblemExpert) (function : Node) : Bool × ProblemExpert :=
  if isValidFunction pe.domain_expert_ pe.instances_ function = false then (false, pe)
  else (true, { pe with functions_ := pe.functions_.eraseP (fun q => nodeEq q function) })

/-- ProblemExpert::updateFunction. -/
def updateFunction (pe : ProblemExpert) (function : Node) : Bool × ProblemExpert :=
  if existFunction pe function then
    if isValidFunction pe.domain_expert_ pe.instances_ function then
      let pe1 := (removeFunction pe function).2
      (true, { pe1 with functions_ := pe1.functions_ ++ [function] })
    else (false, pe)
  else (false, pe)

/-- ProblemExpert::addFunction. -/
def addFunction (pe : ProblemExpert) (function : Node) : Bool × ProblemExpert :=
  if !existFunction pe function then
    if isValidFunction pe.domain_expert_ pe.instances_ function then
      (true, { pe with functions_ := pe.functions_ ++ [function] })
    else (false, pe)
  else updateFunction pe function

/-- ProblemExpert::existConditional (std::find with message equality). -/
def existConditional (pe : ProblemExpert) (condition : Tree) : Bool :=
  pe.conditionals_.any (fun c => decide (c = condition))

/-- ProblemExpert::isValidCondition. -/
def isValidCondition (pe : ProblemExpert) (cond : Tree) : Bool :=
  checkPredicateTreeTypes pe.domain_expert_ pe.instances_ cond

/-- ProblemExpert::isValidGoal: the same tree check as isValidCondition. -/
def isValidGoal (pe : ProblemExpert) (goal : Tree) : Bool :=
  checkPredicateTreeTypes pe.domain_expert_ pe.instances_ goal

/-- ProblemExpert::addConditional: a stored duplicate is a no-op success; a
type-valid tree whose root is ONE_OF with exactly one child collapses into
addPredicate of node 1 (its return value is discarded); any other type-valid
tree is stored verbatim. -/
def addConditional (pe : ProblemExpert) (condition : Tree) : Bool × ProblemExpert :=
  if existConditional pe condition then (true, pe)
  else if isValidCondition pe condition then
    if (condition.nodes.headD defaultNode).node_type = NodeType.ONE_OF ∧
        (condition.nodes.headD defaultNode).children.length = 1 then
      (true, (addPredicate pe (condition.nodes.getD 1 defaultNode)).2)
    else (true, { pe with conditionals_ := pe.conditionals_ ++ [condition] })
  else (false, pe)

/-- One filtered copy built inside ProblemExpert::removeConditional: the ONE_OF
root with its children cleared, then every disjunct not equal to the removed
UNKNOWN's inner fact, renumbered contiguously from index 1. -/
def filterOneOf (c : Tree) (inner : Node) : Tree :=
  let root := c.nodes.headD defaultNode
  let kept := (root.children.map (fun ci => c.nodes.getD ci defaultNode)).filter
    (fun n => !nodeEq n inner)
  ⟨{ root with children := (List.range kept.length).map (fun k => k + 1) } :: kept⟩

/-- The UNKNOWN-removal scan of ProblemExpert::removeConditional: every stored
ONE_OF group is scheduled for removal, and its filtered copy for re-insertion
when at least one disjunct survives. -/
def computeCascade (conds : List Tree) (inner : Node) : List Tree × List Tree :=
  let oneofs := conds.filter
    (fun c => decide ((c.nodes.headD defaultNode).node_type = NodeType.ONE_OF))
  (oneofs,
   (oneofs.map (fun c => filterOneOf c inner)).filter (fun t2 => decide (1 < t2.nodes.length)))

/-- ProblemExpert::removeConditional, with a recursion budget: the source's
self-recursive calls happen only on the ONE_OF rooted trees collected by the
UNKNOWN scan, and those recurse no further, so depth 2 covers every source
execution. -/
def removeConditionalAux : Nat → ProblemExpert → Tree → Bool × ProblemExpert
  | 0, pe, _ => (true, pe)
  | fuel + 1, pe, condition =>
    if isValidCondition pe condition = false then (false, pe)
    else
      match pe.conditionals_.find? (fun ele => checkTreeEquality ele condition) with
      | none => (true, pe)
      | some _ =>
        let pe1 : ProblemExpert :=
          { pe with conditionals_ :=
              pe.conditionals_.eraseP (fun ele => checkTreeEquality ele condition) }
        let rmadd :=
          if (condition.nodes.headD defaultNode).node_type = NodeType.UNKNOWN then
            computeCascade pe1.conditionals_ (condition.nodes.getD 1 defaultNode)
          else ([], [])
        let pe2 := rmadd.1.foldl (fun st c => (removeConditionalAux fuel st c).2) pe1
        let pe3 := rmadd.2.foldl (fun st c => (addConditional st c).2) pe2
        (true, pe3)

/-- ProblemExpert::removeConditional entry point. -/
def removeConditional (pe : ProblemExpert) (condition : Tree) : Bool × ProblemExpert :=
  removeConditionalAux 2 pe condition

/-- ProblemExpert::setGoal. -/
def setGoal (pe : ProblemExpert) (goal : Tree) : Bool × ProblemExpert :=
  if isValidGoal pe goal then (true, { pe with goal_ := goal }) else (false, pe)

/-- ProblemExpert::clearGoal. -/
def clearGoal (pe : ProblemExpert) : Bool × ProblemExpert :=
  (true, { pe with goal_ := emptyTree })

/-- ProblemExpert::clearKnowledge. -/
def clearKnowledge (pe : ProblemExpert) : Bool × ProblemExpert :=
  (true, { pe with instances_ := [], predicates_ := [], functions_ := [],
                   conditionals_ := [], goal_ := emptyTree })

/-- Flat encoding of an UNKNOWN conditional over a single inner fact. -/
def unknownTree (a : Node) : Tree :=
  ⟨[{ defaultNode with node_type := NodeType.UNKNOWN, children := [1] }, a]⟩

/-- Flat encoding of a two-disjunct ONE_OF group. -/
def oneOfTree2 (a b : Node) : Tree :=
  ⟨[{ defaultNode with node_type := NodeType.ONE_OF, children := [1, 2] }, a, b]⟩

/-- A grounded predicate leaf. -/
def predNode (name : String) (args : List String) : Node :=
  { defaultNode with node_type := NodeType.PREDICATE, name := name,
                     parameters := args.map Param.mk }

/-- Concrete schema used by witnesses: robot and location types, predicate at. -/
def dom0 : DomainModel :=
  { types := ["robot", "location"],
    predicates := [("at", [⟨"robot", []⟩, ⟨"location", []⟩])],
    functions := [] }

/-- Concrete state used by witnesses: three objects, nothing else. -/
def pe0 : ProblemExpert :=
  { domain_expert_ := dom0,
    instances_ := [⟨"r1", "robot"⟩, ⟨"l1", "location"⟩, ⟨"l2", "location"⟩],
    predicates_ := [], functions_ := [], conditionals_ := [], goal_ := emptyTree }

/-- Shorthand for the grounded predicate (at obj loc). -/
def atP (obj loc : String) : Node := predNode "at" [obj, loc]

/-- A stored tree that is a ONE_OF group with exactly one disjunct. -/
def oneOfSize1 (t : Tree) : Bool :=
  !t.nodes.isEmpty &&
  decide ((t.nodes.headD defaultNode).node_type = NodeType.ONE_OF) &&
  decide ((t.nodes.headD defaultNode).children.length = 1)

/-- The collapse invariant of claim C2: no stored ONE_OF group has exactly one
disjunct. -/
def invNoSize1 (pe : ProblemExpert) : Bool :=
  pe.conditionals_.all (fun t => !oneOfSize1 t)

/-- A NOT node with one child and a dummy NUMBER leaf, used as a fixture. -/
def notTree1 : Tree :=
  ⟨[{ defaultNode with node_type := NodeType.NOT, children := [1] }, defaultNode]⟩

/-- A NOT node with two children, both valid NUMBER leaves. -/
def notTree2 : Tree :=
  ⟨[{ defaultNode with node_type := NodeType.NOT, children := [1, 2] },
    defaultNode, defaultNode]⟩

/-- Helper: a fold preserves any property its step preserves. -/
theorem foldl_preserve {α σ : Type} (P : σ → Prop) (f : σ → α → σ)
    (h : ∀ s a, P s → P (f s a)) : ∀ (l : List α) (s : σ), P s → P (l.foldl f s) := by
  intro l
  induction l with
  | nil => intro s hs; simpa using hs
  | cons a l ih => intro s hs; simpa using ih (f s a) (h s a hs)

/-- Helper: erasing an element keeps an all-quantified Boolean property. -/
theorem all_eraseP {α : Type} (p q : α → Bool) (l : List α) (h : l.all p = true) :
    (l.eraseP q).all p = true := by
  rw [List.all_eq_true] at h ⊢
  intro x hx
  exact h x ((List.eraseP_sublist l).subset hx)

/-- Helper: find? over an append whose first part has no match. -/
theorem find?_append_none {α : Type} (p : α → Bool) (l₁ l₂ : List α)
    (h : l₁.find? p = none) : (l₁ ++ l₂).find? p = l₂.find? p := by
  simp [List.find?_append, h]

/-- C3, corrected. For every tree and every index holding a NOT node with at
least one child, the type check of the NOT node is exactly the type check of
the subtree rooted at the node's first child: further children are ignored and
the child count is never validated. -/
theorem spec_c3_amended (d : DomainModel) (insts : List Instance) (t : Tree)
    (fuel node_id : Nat) (n : Node) (c : Nat) (rest : List Nat)
    (hn : t.nodes[node_id]? = some n) (hk : n.node_type = NodeType.NOT)
    (hc : n.children = c :: rest) :
    checkAux d insts t (fuel + 1) node_id = checkAux d insts t fuel c := by
  simp [checkAux, hn, hk, hc]

/-- C3 witness: the amended theorem applied to a concrete one-child NOT tree. -/
theorem spec_c3_witness :
    checkAux dom0 [] notTree1 6 0 = checkAux dom0 [] notTree1 5 1 :=
  spec_c3_amended dom0 [] notTree1 5 0
    { defaultNode with node_type := NodeType.NOT, children := [1] } 1 []
    (by decide) (by decide) (by decide)

/-- C3 counterexample: a NOT node with two children is reported type-valid,
refuting the claim that the check fails whenever the child count is not 1. -/
theorem spec_c3_counterexample :
    (notTree2.nodes.headD defaultNode).node_type = NodeType.NOT ∧
    (notTree2.nodes.headD defaultNode).children.length = 2 ∧
    checkPredicateTreeTypes dom0 [] notTree2 = true := by decide

/-- C4, corrected. setGoal replaces the goal and returns true exactly when the
tree passes checkPredicateTreeTypes; no root-kind restriction is applied, so
type-valid UNKNOWN or ONE_OF rooted trees are accepted as goals. -/
theorem spec_c4_amended (pe : ProblemExpert) (g : Tree) :
    ((setGoal pe g).1 = true ↔ isValidGoal pe g = true) ∧
    (isValidGoal pe g = true → (setGoal pe g).2 = { pe with goal_ := g }) ∧
    (isValidGoal pe g = false → (setGoal pe g).2 = pe) := by
  cases h : isValidGoal pe g <;> simp [setGoal, h]

/-- C4 witness: a plain predicate goal is accepted and replaces the goal. -/
theorem spec_c4_witness :
    (setGoal pe0 ⟨[atP "r1" "l1"]⟩).2 = { pe0 with goal_ := ⟨[atP "r1" "l1"]⟩ } :=
  (spec_c4_amended pe0 ⟨[atP "r1" "l1"]⟩).2.1 (by decide)

/-- C4 counterexample: a type-valid UNKNOWN-rooted tree is accepted by setGoal
and becomes the goal, refuting the claimed rejection of UNKNOWN roots. -/
theorem spec_c4_counterexample :
    ((unknownTree (atP "r1" "l1")).nodes.headD defaultNode).node_type = NodeType.UNKNOWN ∧
    (setGoal pe0 (unknownTree (atP "r1" "l1"))).1 = true ∧
    (setGoal pe0 (unknownTree (atP "r1" "l1"))).2.goal_ = unknownTree (atP "r1" "l1") := by
  decide

/-- C9, confirmed. Any root index at or past the node count fails the type
check without any out-of-bounds access, and consequently setGoal,
addConditional (when the empty tree is not already stored, which no mutator can
produce) and removeConditional all return false on the empty tree. -/
theorem spec_c9 :
    (∀ (d : DomainModel) (insts : List Instance) (t : Tree) (fuel node_id : Nat),
      t.nodes.length ≤ node_id → checkAux d insts t fuel node_id = false) ∧
    (∀ pe : ProblemExpert,
      (setGoal pe emptyTree).1 = false ∧
      (existConditional pe emptyTree = false → (addConditional pe emptyTree).1 = false) ∧
      (removeConditional pe emptyTree).1 = false) := by
  have base : ∀ (d : DomainModel) (insts : List Instance) (t : Tree) (fuel node_id : Nat),
      t.nodes.length ≤ node_id → checkAux d insts t fuel node_id = false := by
    intro d insts t fuel node_id h
    cases fuel with
    | zero => rfl
    | succ m => simp [checkAux, List.getElem?_eq_none h]
  refine ⟨base, ?_⟩
  intro pe
  have hval : checkPredicateTreeTypes pe.domain_expert_ pe.instances_ emptyTree = false :=
    base pe.domain_expert_ pe.instances_ emptyTree _ 0 (by simp [emptyTree])
  refine ⟨?_, ?_, ?_⟩
  · simp [setGoal, isValidGoal, hval]
  · intro hex
    simp [addConditional, hex, isValidCondition, hval]
  · simp [removeConditional, removeConditionalAux, isValidCondition, hval]

/-- C9 witness: the empty tree at index 3, and addConditional on the empty
store, both with the hypotheses discharged concretely. -/
theorem spec_c9_witness :
    checkAux dom0 [] emptyTree 5 3 = false ∧ (addConditional pe0 emptyTree).1 = false :=
  ⟨spec_c9.1 dom0 [] emptyTree 5 3 (by decide), (spec_c9.2 pe0).2.1 (by decide)⟩

/-- C8, confirmed. removePredicate and removeFunction reject exactly the
type-invalid argument with no state change, and for a type-valid argument they
erase the first structurally equal stored match and report true whether or not
a match existed; removeConditional likewise reports true on every type-valid
input. -/
theorem spec_c8 (pe : ProblemExpert) (p f : Node) (t : Tree) :
    (isValidPredicate pe.domain_expert_ pe.instances_ p = false →
      removePredicate pe p = (false, pe)) ∧
    (isValidPredicate pe.domain_expert_ pe.instances_ p = true →
      (removePredicate pe p).1 = true ∧
      (removePredicate pe p).2.predicates_ = pe.predicates_.eraseP (fun q => nodeEq q p)) ∧
    (isValidFunction pe.domain_expert_ pe.instances_ f = false →
      removeFunction pe f = (false, pe)) ∧
    (isValidFunction pe.domain_expert_ pe.instances_ f = true →
      (removeFunction pe f).1 = true ∧
      (removeFunction pe f).2.functions_ = pe.functions_.eraseP (fun q => nodeEq q f)) ∧
    (isValidCondition pe t = true → (removeConditional pe t).1 = true) := by
  refine ⟨?_, ?_, ?_, ?_, ?_⟩
  · intro h; simp [removePredicate, h]
  · intro h; simp [removePredicate, h]
  · intro h; simp [removeFunction, h]
  · intro h; simp [removeFunction, h]
  · intro h
    unfold removeConditional removeConditionalAux
    simp only [h]
    cases hf : pe.conditionals_.find? (fun ele => checkTreeEquality ele t) <;> simp [hf]

/-- C8 witness: removing a type-valid predicate from a store without any match
still returns true; removing a type-invalid one returns false unchanged. -/
theorem spec_c8_witness :
    (removePredicate pe0 (atP "r1" "l1")).1 = true ∧
    removePredicate pe0 (atP "r1" "r1") = (false, pe0) :=
  ⟨((spec_c8 pe0 (atP "r1" "l1") defaultNode emptyTree).2.1 (by decide)).1,
   (spec_c8 pe0 (atP "r1" "r1") defaultNode emptyTree).1 (by decide)⟩

/-- C10, confirmed. removeInstance cascades unconditionally: even when no
instance carries the name (the call returns false), every predicate and
function referencing the name is dropped and the goal cascade is applied, while
the instance list stays unchanged. -/
theorem spec_c10 (pe : ProblemExpert) (inst : Instance)
    (h : existInstance pe inst.name = false) :
    removeInstance pe inst =
      (false,
       { pe with
         predicates_ := pe.predicates_.filter (fun p => !refersTo p inst.name),
         functions_ := pe.functions_.filter (fun fn => !refersTo fn inst.name),
         goal_ := removeInvalidGoals pe.goal_ inst.name }) := by
  have hall : ∀ i ∈ pe.instances_, ¬ (decide (i.name = inst.name) = true) := by
    simpa [existInstance, List.any_eq_false] using h
  have herase : pe.instances_.eraseP (fun i => decide (i.name = inst.name)) = pe.instances_ :=
    List.eraseP_of_forall_not hall
  have hany : pe.instances_.any (fun i => decide (i.name = inst.name)) = false := by
    simpa [existInstance] using h
  simp [removeInstance, removeInvalidPredicates, removeInvalidFunctions, herase, hany]

/-- C10 witness: removing the absent object r9 from a store holding the
predicate (at r1 l1) leaves everything filtered-but-identical and returns
false. -/
theorem spec_c10_witness :
    removeInstance { pe0 with predicates_ := [atP "r1" "l1"] } ⟨"r9", "robot"⟩ =
      (false,
       { { pe0 with predicates_ := [atP "r1" "l1"] } with
         predicates_ := [atP "r1" "l1"].filter (fun p => !refersTo p "r9"),
         functions_ := List.filter (fun fn => !refersTo fn "r9") [],
         goal_ := removeInvalidGoals emptyTree "r9" }) :=
  spec_c10 { pe0 with predicates_ := [atP "r1" "l1"] } ⟨"r9", "robot"⟩ (by decide)

/-- After a successful addInstance of (n, t), the type was schema-valid and
some stored instance named n carries type t. -/
theorem addInstance_post (pe : ProblemExpert) (n t : String)
    (h : (addInstance pe ⟨n, t⟩).1 = true) :
    isValidType pe.domain_expert_ t = true ∧
    (addInstance pe ⟨n, t⟩).2.domain_expert_ = pe.domain_expert_ ∧
    ∃ e, getInstanceIn (addInstance pe ⟨n, t⟩).2.instances_ n = some e ∧ e.type = t := by
  cases hvv : isValidType pe.domain_expert_ t with
  | false => simp [addInstance, hvv] at h
  | true =>
    cases hm : getInstanceIn pe.instances_ n with
    | none =>
      have hstate : (addInstance pe ⟨n, t⟩).2 =
          { pe with instances_ := pe.instances_ ++ [⟨n, t⟩] } := by
        simp [addInstance, hvv, hm]
      have hfind : getInstanceIn (pe.instances_ ++ [⟨n, t⟩]) n = some ⟨n, t⟩ := by
        unfold getInstanceIn at hm ⊢
        rw [find?_append_none _ _ _ hm]
        simp [List.find?]
      exact ⟨rfl, by rw [hstate], ⟨n, t⟩, by rw [hstate]; exact hfind, rfl⟩
    | some e =>
      by_cases he : e.type = t
      · have hstate : (addInstance pe ⟨n, t⟩).2 = pe := by
          simp [addInstance, hvv, hm, he]
        exact ⟨rfl, by rw [hstate], e, by rw [hstate]; exact hm, he⟩
      · simp [addInstance, hvv, hm, he] at h

/-- C7, confirmed. addInstance fails with no state change when the type is not
declared or when the name is taken with a different type; after one successful
addInstance of (n, t), re-adding the identical pair succeeds and changes
nothing (so two calls equal one call), while adding (n, t2) with t2 different
from t fails and changes nothing. -/
theorem spec_c7 (pe : ProblemExpert) (n t t2 : String) :
    (isValidType pe.domain_expert_ t = false → addInstance pe ⟨n, t⟩ = (false, pe)) ∧
    (∀ e, getInstanceIn pe.instances_ n = some e → e.type ≠ t →
      addInstance pe ⟨n, t⟩ = (false, pe)) ∧
    ((addInstance pe ⟨n, t⟩).1 = true →
      addInstance (addInstance pe ⟨n, t⟩).2 ⟨n, t⟩ = (true, (addInstance pe ⟨n, t⟩).2)) ∧
    ((addInstance pe ⟨n, t⟩).1 = true → t2 ≠ t →
      addInstance (addInstance pe ⟨n, t⟩).2 ⟨n, t2⟩ = (false, (addInstance pe ⟨n, t⟩).2)) := by
  refine ⟨?_, ?_, ?_, ?_⟩
  · intro h; simp [addInstance, h]
  · intro e he hne
    cases hvv : isValidType pe.domain_expert_ t with
    | false => simp [addInstance, hvv]
    | true => simp [addInstance, hvv, he, hne]
  · intro h
    obtain ⟨hv, hdom, e, hfind, het⟩ := addInstance_post pe n t h
    generalize hs2 : (addInstance pe ⟨n, t⟩).2 = s2 at hdom hfind ⊢
    simp [addInstance, hdom, hv, hfind, het]
  · intro h hne
    obtain ⟨hv, hdom, e, hfind, het⟩ := addInstance_post pe n t h
    have het2 : e.type ≠ t2 := by rw [het]; exact fun hh => hne hh.symm
    generalize hs2 : (addInstance pe ⟨n, t⟩).2 = s2 at hdom hfind ⊢
    cases hv2 : isValidType pe.domain_expert_ t2 with
    | false => simp [addInstance, hdom, hv2]
    | true => simp [addInstance, hdom, hv2, hfind, het2]

/-- C7 witness: adding the fresh object r9 twice succeeds both times and the
second call leaves the store exactly as after the first. -/
theorem spec_c7_witness :
    addInstance (addInstance pe0 ⟨"r9", "robot"⟩).2 ⟨"r9", "robot"⟩ =
      (true, (addInstance pe0 ⟨"r9", "robot"⟩).2) :=
  (spec_c7 pe0 "r9" "robot" "x").2.2.1 (by decide)

/-- C6, confirmed. removeInstance reports true exactly when an instance with
the name was stored (independent of the cascades), erases the first such
instance, keeps exactly the predicates and functions that do not reference the
name, and rewrites the goal through the goal cascade. -/
theorem spec_c6 (pe : ProblemExpert) (inst : Instance) :
    ((removeInstance pe inst).1 = true ↔ ∃ i ∈ pe.instances_, i.name = inst.name) ∧
    ((removeInstance pe inst).1 = existInstance pe inst.name) ∧
    ((removeInstance pe inst).2.instances_ =
      pe.instances_.eraseP (fun i => decide (i.name = inst.name))) ∧
    (∀ p : Node, p ∈ (removeInstance pe inst).2.predicates_ ↔
      p ∈ pe.predicates_ ∧ refersTo p inst.name = false) ∧
    (∀ fn : Node, fn ∈ (removeInstance pe inst).2.functions_ ↔
      fn ∈ pe.functions_ ∧ refersTo fn inst.name = false) ∧
    ((removeInstance pe inst).2.goal_ = removeInvalidGoals pe.goal_ inst.name) := by
  refine ⟨?_, rfl, rfl, ?_, ?_, rfl⟩
  · simp [removeInstance, List.any_eq_true]
  · intro p
    simp [removeInstance, removeInvalidPredicates, List.mem_filter, Bool.not_eq_true']
  · intro fn
    simp [removeInstance, removeInvalidFunctions, List.mem_filter, Bool.not_eq_true']

/-- addInstance never touches the contingent store. -/
theorem addInstance_conditionals (pe : ProblemExpert) (i : Instance) :
    (addInstance pe i).2.conditionals_ = pe.conditionals_ := by
  unfold addInstance; repeat' split
  all_goals rfl

/-- addPredicate never touches the contingent store. -/
theorem addPredicate_conditionals (pe : ProblemExpert) (p : Node) :
    (addPredicate pe p).2.conditionals_ = pe.conditionals_ := by
  unfold addPredicate; repeat' split
  all_goals rfl

/-- removePredicate never touches the contingent store. -/
theorem removePredicate_conditionals (pe : ProblemExpert) (p : Node) :
    (removePredicate pe p).2.conditionals_ = pe.conditionals_ := by
  unfold removePredicate; repeat' split
  all_goals rfl

/-- removeFunction never touches the contingent store. -/
theorem removeFunction_conditionals (pe : ProblemExpert) (f : Node) :
    (removeFunction pe f).2.conditionals_ = pe.conditionals_ := by
  unfold removeFunction; repeat' split
  all_goals rfl

/-- updateFunction never touches the contingent store. -/
theorem updateFunction_conditionals (pe : ProblemExpert) (f : Node) :
    (updateFunction pe f).2.conditionals_ = pe.conditionals_ := by
  unfold updateFunction; repeat' split
  all_goals simp [removeFunction_conditionals]

/-- addFunction never touches the contingent store. -/
theorem addFunction_conditionals (pe : ProblemExpert) (f : Node) :
    (addFunction pe f).2.conditionals_ = pe.conditionals_ := by
  unfold addFunction; repeat' split
  all_goals simp [updateFunction_conditionals]

/-- setGoal never touches the contingent store. -/
theorem setGoal_conditionals (pe : ProblemExpert) (g : Tree) :
    (setGoal pe g).2.conditionals_ = pe.conditionals_ := by
  unfold setGoal; split
  all_goals rfl

/-- addConditional preserves the no-size-1 invariant: the only tree it ever
appends sits in the branch whose guard rules out a ONE_OF root with one child. -/
theorem addConditional_inv (pe : ProblemExpert) (t : Tree) (h : invNoSize1 pe = true) :
    invNoSize1 (addConditional pe t).2 = true := by
  unfold addConditional
  split
  · exact h
  · split
    · split
      · simpa only [invNoSize1, addPredicate_conditionals] using h
      · rename_i hnot
        have hsz : oneOfSize1 t = false := by
          cases hn : t.nodes with
          | nil => simp [oneOfSize1, hn]
          | cons a l =>
            simp only [hn, List.headD_cons] at hnot
            by_cases h1 : a.node_type = NodeType.ONE_OF
            · have h2 : ¬ a.children.length = 1 := fun hq => hnot ⟨h1, hq⟩
              simp [oneOfSize1, hn, h2]
            · simp [oneOfSize1, hn, h1]
        unfold invNoSize1 at h ⊢
        rw [List.all_append]
        simp [h, hsz]
    · exact h

/-- Every removeConditional run preserves the no-size-1 invariant, whatever
trees the UNKNOWN scan schedules for re-insertion, because the re-insertions
go through addConditional. -/
theorem removeConditionalAux_inv :
    ∀ (fuel : Nat) (pe : ProblemExpert) (t : Tree),
      invNoSize1 pe = true → invNoSize1 (removeConditionalAux fuel pe t).2 = true := by
  intro fuel
  induction fuel with
  | zero => intro pe t h; exact h
  | succ m ih =>
    intro pe t h
    unfold removeConditionalAux
    split
    · exact h
    · split
      · exact h
      · dsimp only
        apply foldl_preserve (fun s : ProblemExpert => invNoSize1 s = true)
          (fun st c => (addConditional st c).2) (fun s c hs => addConditional_inv s c hs)
        apply foldl_preserve (fun s : ProblemExpert => invNoSize1 s = true)
          (fun st c => (removeConditionalAux m st c).2) (fun s c hs => ih s c hs)
        exact all_eraseP _ _ _ h

/-- C2, corrected. Every mutator preserves the invariant that no stored ONE_OF
group has exactly one disjunct (a size-1 group is collapsed on insertion); the
size-0 half of the claim does not hold, see the counterexample. -/
theorem spec_c2_amended (pe : ProblemExpert) (h : invNoSize1 pe = true) :
    (∀ i, invNoSize1 (addInstance pe i).2 = true) ∧
    (∀ i, invNoSize1 (removeInstance pe i).2 = true) ∧
    (∀ p, invNoSize1 (addPredicate pe p).2 = true) ∧
    (∀ p, invNoSize1 (removePredicate pe p).2 = true) ∧
    (∀ f, invNoSize1 (addFunction pe f).2 = true) ∧
    (∀ f, invNoSize1 (removeFunction pe f).2 = true) ∧
    (∀ f, invNoSize1 (updateFunction pe f).2 = true) ∧
    (∀ t, invNoSize1 (addConditional pe t).2 = true) ∧
    (∀ t, invNoSize1 (removeConditional pe t).2 = true) ∧
    (∀ g, invNoSize1 (setGoal pe g).2 = true) ∧
    invNoSize1 (clearGoal pe).2 = true ∧
    invNoSize1 (clearKnowledge pe).2 = true := by
  refine ⟨?_, ?_, ?_, ?_, ?_, ?_, ?_, ?_, ?_, ?_, ?_, ?_⟩
  · intro i; simpa only [invNoSize1, addInstance_conditionals] using h
  · intro i; simpa only [invNoSize1, removeInstance] using h
  · intro p; simpa only [invNoSize1, addPredicate_conditionals] using h
  · intro p; simpa only [invNoSize1, removePredicate_conditionals] using h
  · intro f; simpa only [invNoSize1, addFunction_conditionals] using h
  · intro f; simpa only [invNoSize1, removeFunction_conditionals] using h
  · intro f; simpa only [invNoSize1, updateFunction_conditionals] using h
  · intro t; exact addConditional_inv pe t h
  · intro t; exact removeConditionalAux_inv 2 pe t h
  · intro g; simpa only [invNoSize1, setGoal_conditionals] using h
  · simpa only [invNoSize1, clearGoal] using h
  · simp [invNoSize1, clearKnowledge]

/-- C2 witness: the preservation theorem applied to the empty store and a
two-disjunct ONE_OF insertion. -/
theorem spec_c2_witness :
    invNoSize1 (addConditional pe0 (oneOfTree2 (atP "r1" "l1") (atP "r1" "l2"))).2 = true :=
  (spec_c2_amended pe0 (by decide)).2.2.2.2.2.2.2.1 (oneOfTree2 (atP "r1" "l1") (atP "r1" "l2"))

/-- A ONE_OF root with no children at all: vacuously type-valid. -/
def zeroOneOf : Tree := ⟨[{ defaultNode with node_type := NodeType.ONE_OF }]⟩

/-- C2 counterexample: addConditional accepts a childless ONE_OF (all zero of
its children type-check) and stores it, so a reachable state does hold a
ONE_OF group of size 0, refuting the size-0 half of the invariant. -/
theorem spec_c2_counterexample :
    (addConditional pe0 zeroOneOf).1 = true ∧
    (addConditional pe0 zeroOneOf).2.conditionals_ = [zeroOneOf] ∧
    (zeroOneOf.nodes.headD defaultNode).node_type = NodeType.ONE_OF ∧
    (zeroOneOf.nodes.headD defaultNode).children.length = 0 := by decide

/-- Flat encoding of a single-disjunct ONE_OF group. -/
def oneOfTree1 (a : Node) : Tree :=
  ⟨[{ defaultNode with node_type := NodeType.ONE_OF, children := [1] }, a]⟩

/-- C5, corrected. The duplicate check runs first: an already-stored equal
conditional is a no-op success even when the tree is no longer type-valid;
with no duplicate, a type-invalid tree is rejected unchanged; a type-valid
ONE_OF with exactly one root child collapses into addPredicate of node 1 and
stores no conditional; any other type-valid tree is stored verbatim. -/
theorem spec_c5_amended (pe : ProblemExpert) (t : Tree) :
    (existConditional pe t = true → addConditional pe t = (true, pe)) ∧
    (existConditional pe t = false → isValidCondition pe t = false →
      addConditional pe t = (false, pe)) ∧
    (existConditional pe t = false → isValidCondition pe t = true →
      (t.nodes.headD defaultNode).node_type = NodeType.ONE_OF →
      (t.nodes.headD defaultNode).children.length = 1 →
      addConditional pe t = (true, (addPredicate pe (t.nodes.getD 1 defaultNode)).2) ∧
      (addConditional pe t).2.conditionals_ = pe.conditionals_) ∧
    (existConditional pe t = false → isValidCondition pe t = true →
      ¬((t.nodes.headD defaultNode).node_type = NodeType.ONE_OF ∧
        (t.nodes.headD defaultNode).children.length = 1) →
      addConditional pe t = (true, { pe with conditionals_ := pe.conditionals_ ++ [t] })) := by
  refine ⟨?_, ?_, ?_, ?_⟩
  · intro h; simp [addConditional, h]
  · intro h1 h2; simp [addConditional, h1, h2]
  · intro h1 h2 h3 h4
    simp only [List.headD_eq_head?_getD] at h3 h4
    have heq : addConditional pe t = (true, (addPredicate pe (t.nodes.getD 1 defaultNode)).2) := by
      simp [addConditional, h1, h2, h3, h4]
    exact ⟨heq, by rw [heq]; exact addPredicate_conditionals pe _⟩
  · intro h1 h2 h3
    simp only [List.headD_eq_head?_getD] at h3
    simp [addConditional, h1, h2, h3]

/-- The state reached by storing UNKNOWN (at r1 l1) and then removing r1: the
stored conditional is still there but no longer type-valid. -/
def peStale : ProblemExpert :=
  (removeInstance (addConditional pe0 (unknownTree (atP "r1" "l1"))).2 ⟨"r1", "robot"⟩).2

/-- C5 counterexample: in a reachable state holding a stale (type-invalid)
conditional, addConditional of that same tree returns true and changes
nothing, refuting the unconditional claim that a type-invalid tree yields
false. -/
theorem spec_c5_counterexample :
    isValidCondition peStale (unknownTree (atP "r1" "l1")) = false ∧
    existConditional peStale (unknownTree (atP "r1" "l1")) = true ∧
    (addConditional peStale (unknownTree (atP "r1" "l1"))).1 = true ∧
    (addConditional peStale (unknownTree (atP "r1" "l1"))).2 = peStale := by decide

/-- C5 witness: the collapse branch applied to a concrete single-disjunct
ONE_OF. -/
theorem spec_c5_witness :
    addConditional pe0 (oneOfTree1 (atP "r1" "l1")) =
      (true, (addPredicate pe0 ((oneOfTree1 (atP "r1" "l1")).nodes.getD 1 defaultNode)).2) ∧
    (addConditional pe0 (oneOfTree1 (atP "r1" "l1"))).2.conditionals_ = pe0.conditionals_ :=
  (spec_c5_amended pe0 (oneOfTree1 (atP "r1" "l1"))).2.2.1
    (by decide) (by decide) (by decide) (by decide)

/-- nodeEq is reflexive. -/
theorem nodeEq_refl (a : Node) : nodeEq a a = true := by
  simp [nodeEq]

/-- checkTreeEquality is reflexive. -/
theorem checkTreeEquality_refl (t : Tree) : checkTreeEquality t t = true := by
  simp [checkTreeEquality]

/-- Type check of a flat UNKNOWN conditional over a predicate leaf. -/
theorem valid_unknownTree (d : DomainModel) (insts : List Instance) (A : Node)
    (hA : A.node_type = NodeType.PREDICATE) :
    checkPredicateTreeTypes d insts (unknownTree A) = isValidPredicate d insts A := by
  have h : checkAux d insts (unknownTree A) (1 + 2) 0 = isValidPredicate d insts A := by
    simp [checkAux, unknownTree, hA]
  simpa [checkPredicateTreeTypes, unknownTree] using h

/-- Type check of a flat two-disjunct ONE_OF over predicate leaves. -/
theorem valid_oneOfTree2 (d : DomainModel) (insts : List Instance) (A B : Node)
    (hA : A.node_type = NodeType.PREDICATE) (hB : B.node_type = NodeType.PREDICATE) :
    checkPredicateTreeTypes d insts (oneOfTree2 A B) =
      (isValidPredicate d insts A && isValidPredicate d insts B) := by
  have h : checkAux d insts (oneOfTree2 A B) (2 + 2) 0 =
      (isValidPredicate d insts A && isValidPredicate d insts B) := by
    simp [checkAux, oneOfTree2, hA, hB]
  simpa [checkPredicateTreeTypes, oneOfTree2] using h

/-- Type check of a flat single-disjunct ONE_OF over a predicate leaf. -/
theorem valid_oneOfTree1 (d : DomainModel) (insts : List Instance) (B : Node)
    (hB : B.node_type = NodeType.PREDICATE) :
    checkPredicateTreeTypes d insts (oneOfTree1 B) = isValidPredicate d insts B := by
  have h : checkAux d insts (oneOfTree1 B) (1 + 2) 0 = isValidPredicate d insts B := by
    simp [checkAux, oneOfTree1, hB]
  simpa [checkPredicateTreeTypes, oneOfTree1] using h

/-- Filtering the two-disjunct group by its first disjunct keeps the second. -/
theorem filterOneOf_drop_first (A B : Node) (hne : nodeEq B A = false) :
    filterOneOf (oneOfTree2 A B) A = oneOfTree1 B := by
  simp [filterOneOf, oneOfTree2, oneOfTree1, nodeEq_refl, hne]
  rfl

/-- C1, corrected. The ONE_OF filtering cascade runs only when the UNKNOWN
conditional is itself found (and erased) among the stored conditionals: when
both the group ONE_OF (with disjuncts A and B, B not node-equal to A) and the
conditional UNKNOWN over A are stored, removing the UNKNOWN leaves no
conditional entry and promotes B to a certain predicate through the size-1
collapse of addConditional. -/
theorem spec_c1_amended (dom : DomainModel) (insts : List Instance)
    (ps fs : List Node) (g : Tree) (A B : Node)
    (hA : A.node_type = NodeType.PREDICATE) (hB : B.node_type = NodeType.PREDICATE)
    (hvA : isValidPredicate dom insts A = true) (hvB : isValidPredicate dom insts B = true)
    (hne : nodeEq B A = false) :
    (removeConditional ⟨dom, insts, ps, fs, [oneOfTree2 A B, unknownTree A], g⟩
        (unknownTree A)).1 = true ∧
    (removeConditional ⟨dom, insts, ps, fs, [oneOfTree2 A B, unknownTree A], g⟩
        (unknownTree A)).2.conditionals_ = [] ∧
    (removeConditional ⟨dom, insts, ps, fs, [oneOfTree2 A B, unknownTree A], g⟩
        (unknownTree A)).2.predicates_.any (fun q => nodeEq q B) = true := by
  have hT1 : checkTreeEquality (oneOfTree2 A B) (unknownTree A) = false := by
    simp [checkTreeEquality, oneOfTree2, unknownTree]
  have hT2 : checkTreeEquality (unknownTree A) (unknownTree A) = true :=
    checkTreeEquality_refl _
  have hT3 : checkTreeEquality (oneOfTree2 A B) (oneOfTree2 A B) = true :=
    checkTreeEquality_refl _
  have hfil := filterOneOf_drop_first A B hne
  have hr1 : ((unknownTree A).nodes.head?.getD defaultNode).node_type = NodeType.UNKNOWN := rfl
  have hr2 : (unknownTree A).nodes[1]?.getD defaultNode = A := rfl
  have hr3 : ((oneOfTree2 A B).nodes.head?.getD defaultNode).node_type = NodeType.ONE_OF := rfl
  have hr4 : ((oneOfTree1 B).nodes.head?.getD defaultNode).node_type = NodeType.ONE_OF := rfl
  have hr5 : ((oneOfTree1 B).nodes.head?.getD defaultNode).children.length = 1 := rfl
  have hr6 : (oneOfTree1 B).nodes[1]?.getD defaultNode = B := rfl
  have hr7 : (oneOfTree1 B).nodes.length = 2 := rfl
  have hr8 : (oneOfTree1 B).nodes[1] = B := rfl
  cases hEx : ps.any (fun q => nodeEq q B) with
  | true =>
    rw [List.any_eq_true] at hEx
    simp [removeConditional, removeConditionalAux, isValidCondition,
      valid_unknownTree dom insts A hA, valid_oneOfTree2 dom insts A B hA hB,
      valid_oneOfTree1 dom insts B hB, hvA, hvB, hT1, hT2, hT3, hfil,
      List.find?, List.eraseP, List.filter, List.map, List.foldl, computeCascade,
      addConditional, existConditional,
      addPredicate, existPredicate, hEx, nodeEq_refl,
      hr1, hr2, hr3, hr4, hr5, hr6, hr7, hr8]
  | false =>
    have hEx2 : ¬ ∃ x ∈ ps, nodeEq x B = true := by
      rw [← List.any_eq_true]; simp [hEx]
    simp [removeConditional, removeConditionalAux, isValidCondition,
      valid_unknownTree dom insts A hA, valid_oneOfTree2 dom insts A B hA hB,
      valid_oneOfTree1 dom insts B hB, hvA, hvB, hT1, hT2, hT3, hfil,
      List.find?, List.eraseP, List.filter, List.map, List.foldl, computeCascade,
      addConditional, existConditional,
      addPredicate, existPredicate, hEx, nodeEq_refl,
      hr1, hr2, hr3, hr4, hr5, hr6, hr7, hr8, hEx2]


/-- C1 witness: the amended theorem at the concrete robot-location state. -/
theorem spec_c1_witness :
    (removeConditional ⟨dom0, pe0.instances_, [], [],
        [oneOfTree2 (atP "r1" "l1") (atP "r1" "l2"), unknownTree (atP "r1" "l1")], emptyTree⟩
        (unknownTree (atP "r1" "l1"))).1 = true ∧
    (removeConditional ⟨dom0, pe0.instances_, [], [],
        [oneOfTree2 (atP "r1" "l1") (atP "r1" "l2"), unknownTree (atP "r1" "l1")], emptyTree⟩
        (unknownTree (atP "r1" "l1"))).2.conditionals_ = [] ∧
    (removeConditional ⟨dom0, pe0.instances_, [], [],
        [oneOfTree2 (atP "r1" "l1") (atP "r1" "l2"), unknownTree (atP "r1" "l1")], emptyTree⟩
        (unknownTree (atP "r1" "l1"))).2.predicates_.any
        (fun q => nodeEq q (atP "r1" "l2")) = true :=
  spec_c1_amended dom0 pe0.instances_ [] [] emptyTree (atP "r1" "l1") (atP "r1" "l2")
    (by decide) (by decide) (by decide) (by decide) (by decide)

/-- C1 counterexample: with only the ONE_OF group stored (the UNKNOWN
conditional was never added), removing the type-valid UNKNOWN over the first
disjunct finds no structural match, so nothing happens: the group survives and
no predicate is promoted, refuting the claim as stated. -/
theorem spec_c1_counterexample :
    isValidCondition { pe0 with conditionals_ := [oneOfTree2 (atP "r1" "l1") (atP "r1" "l2")] }
        (unknownTree (atP "r1" "l1")) = true ∧
    (removeConditional { pe0 with conditionals_ := [oneOfTree2 (atP "r1" "l1") (atP "r1" "l2")] }
        (unknownTree (atP "r1" "l1"))).1 = true ∧
    (removeConditional { pe0 with conditionals_ := [oneOfTree2 (atP "r1" "l1") (atP "r1" "l2")] }
        (unknownTree (atP "r1" "l1"))).2 =
      { pe0 with conditionals_ := [oneOfTree2 (atP "r1" "l1") (atP "r1" "l2")] } := by decide

end Plansys2
